import Mathlib

/-!
# Shallow embedding of `src/py/work_hours_final.py`

The script is a linear pipeline: read a CSV file, aggregate work-hour
records by parent category, sort, render a stacked-bar chart, and print a
textual report.  We embed each stage as a Lean function over exact
rationals (the script's IEEE floats are modelled by `ℚ`; all the numeric
literals involved, such as `0.03`, are then exact).  Fallible operations
(Python exceptions) are modelled with `Except`:

* `float(...)` coercion of the hours field is `pyFloat : String → Option ℚ`;
* float division, which raises `ZeroDivisionError` on a zero divisor in
  Python, is `pyDiv : ℚ → ℚ → Except Unit ℚ`;
* `next(reader)` on an empty file raises `StopIteration`, the
  `LoadOutcome.stopIteration` constructor.

`defaultdict` accumulation is modelled by association lists keyed in first
insertion order (Python 2 dict iteration order is implementation defined;
every theorem below is independent of that order).  Python's stable
`sorted(key=…, reverse=True)` is modelled by the stable descending
insertion sort `sortD`.
-/

namespace WorkHours

/-- A loaded record `(title, parent, hours)`, as appended at line 32 of the
script. -/
abbrev Record := String × String × ℚ

/-- One CSV data row, a list of string fields. -/
abbrev Row := List String

/-- The input file: `none` when `os.path.exists` is false, otherwise the
list of CSV rows (header included). -/
abbrev FileInput := Option (List Row)

/-! ## Model of Python's `float()` on decimal literals

`pyFloat` models the builtin `float` coercion at line 31 on plain decimal
literals: optional surrounding whitespace, an optional sign, then digits
with an optional single decimal point (at least one digit overall).
Scientific notation and the `inf`/`nan` spellings, which the claims never
exercise, are out of the modelled subset and map to `none`. -/

/-- Numeric value of a digit character. -/
def digitVal (c : Char) : ℕ := c.toNat - '0'.toNat

/-- Value of a digit string read as a natural number. -/
def digitsVal (cs : List Char) : ℕ := cs.foldl (fun a c => a * 10 + digitVal c) 0

/-- Parse an unsigned decimal literal `digits [ . digits ]` (at least one
digit overall, nothing else). -/
def pyFloatUnsigned (cs : List Char) : Option ℚ :=
  let intPart := cs.takeWhile Char.isDigit
  let rest := cs.dropWhile Char.isDigit
  match rest with
  | [] => if intPart.isEmpty then none else some (digitsVal intPart : ℚ)
  | '.' :: frac =>
      if frac.all Char.isDigit ∧ ¬(intPart.isEmpty ∧ frac.isEmpty) then
        some ((digitsVal intPart : ℚ) + (digitsVal frac : ℚ) / (10 : ℚ) ^ frac.length)
      else none
  | _ => none

/-- Strip leading and trailing whitespace, as `float()` does. -/
def stripWs (cs : List Char) : List Char :=
  ((cs.dropWhile Char.isWhitespace).reverse.dropWhile Char.isWhitespace).reverse

/-- Model of Python's `float()` on decimal literals (see section comment). -/
def pyFloat (s : String) : Option ℚ :=
  match stripWs s.toList with
  | '-' :: rest => (pyFloatUnsigned rest).map (fun q => -q)
  | '+' :: rest => pyFloatUnsigned rest
  | cs => pyFloatUnsigned cs

/-! ## Data loader: `read_data_from_csv` (lines 17–41) -/

/-- A diagnostic line printed by the loader. -/
inductive Diag where
  /-- Line 21: reading from the CSV file. -/
  | reading : Diag
  /-- Line 34: skipping an invalid row (names the row). -/
  | invalidRow (row : Row) : Diag
  /-- Lines 36–39: the CSV file does not exist. -/
  | missingFile : Diag
deriving DecidableEq, Repr

/-- The record produced by a data row, if any: rows with at least 3 fields
whose third field passes `float()` coercion (lines 27–32). -/
def rowRecord (row : Row) : Option Record :=
  if 3 ≤ row.length then
    match pyFloat (row.getD 2 "") with
    | some hours => some (row.getD 0 "", row.getD 1 "", hours)
    | none => none
  else none

/-- The diagnostic printed for a data row, if any: only rows with at least
3 fields whose third field fails `float()` coercion (lines 33–34). -/
def rowDiag (row : Row) : Option Diag :=
  if 3 ≤ row.length ∧ pyFloat (row.getD 2 "") = none then
    some (.invalidRow row)
  else none

/-- Outcome of `read_data_from_csv`. -/
inductive LoadOutcome where
  /-- The function returns `data` having printed `diags`. -/
  | ok (data : List Record) (diags : List Diag) : LoadOutcome
  /-- Unhandled `StopIteration` raised by `next(reader)` at line 25
  (the file exists but has no rows at all). -/
  | stopIteration : LoadOutcome
deriving DecidableEq, Repr

/-- Model of `read_data_from_csv` (lines 17–41): missing file prints a diagnostic and
returns `[]`; an existing file has its header row consumed unconditionally
(line 25, raising `StopIteration` if there is none) and each remaining row
processed by `rowRecord` / `rowDiag`. -/
def read_data_from_csv (file : FileInput) : LoadOutcome :=
  match file with
  | none => .ok [] [.missingFile]
  | some [] => .stopIteration
  | some (_header :: rows) =>
      .ok (rows.filterMap rowRecord) (.reading :: rows.filterMap rowDiag)

/-! ## Aggregation (lines 55–60)

`parent_data` is a `defaultdict(lambda: defaultdict(float))` from parent to
(title to accumulated hours); `parent_totals` a `defaultdict(float)` from
parent to accumulated hours.  Both are modelled as association lists in
first-insertion order. -/

/-- Add `v` to the entry of `k` in an accumulator association list,
appending a fresh entry when absent (`defaultdict(float)` update). -/
def addAssoc (l : List (String × ℚ)) (k : String) (v : ℚ) : List (String × ℚ) :=
  match l with
  | [] => [(k, v)]
  | (k', v') :: t => if k' = k then (k', v' + v) :: t else (k', v') :: addAssoc t k v

/-- Add `v` to the entry of `(p, t)` in the nested accumulator
(`parent_data[parent][title] += hours`). -/
def addNested (l : List (String × List (String × ℚ))) (p t : String) (v : ℚ) :
    List (String × List (String × ℚ)) :=
  match l with
  | [] => [(p, [(t, v)])]
  | (p', m) :: rest =>
      if p' = p then (p', addAssoc m t v) :: rest else (p', m) :: addNested rest p t v

/-- The aggregation loop (lines 58–60): returns `(parent_data, parent_totals)`. -/
def aggregate (data : List Record) :
    List (String × List (String × ℚ)) × List (String × ℚ) :=
  data.foldl
    (fun acc r => (addNested acc.1 r.2.1 r.1 r.2.2, addAssoc acc.2 r.2.1 r.2.2))
    ([], [])

/-- Lookup `parent_totals[p]`: lookup with the `defaultdict(float)` default `0`. -/
def lookupQ (l : List (String × ℚ)) (k : String) : ℚ :=
  match l with
  | [] => 0
  | (k', v) :: t => if k' = k then v else lookupQ t k

/-- Lookup `parent_data[p]`: lookup with the `defaultdict` default empty mapping. -/
def lookupTasks (l : List (String × List (String × ℚ))) (k : String) :
    List (String × ℚ) :=
  match l with
  | [] => []
  | (k', m) :: t => if k' = k then m else lookupTasks t k

/-- The keys of an association list, in insertion order
(`parent_totals.keys()`). -/
def keysOf (l : List (String × ℚ)) : List String := l.map Prod.fst

/-! ## Sorting: `sorted(…, key=…, reverse=True)` (lines 63 and 83)

Python's `sorted` with `reverse=True` is a stable descending sort: elements
with equal keys keep their original relative order.  `sortD` is the stable
descending insertion sort, extensionally equal to it. -/

/-- Insert `a` into a descending-sorted list, before the first element whose
key does not exceed `a`'s (stability: `a` precedes later equal-key
elements). -/
def insertDesc {α : Type} (key : α → ℚ) (a : α) : List α → List α
  | [] => [a]
  | b :: t => if key b ≤ key a then a :: b :: t else b :: insertDesc key a t

/-- Stable descending sort by `key`: model of
`sorted(xs, key=key, reverse=True)`. -/
def sortD {α : Type} (key : α → ℚ) : List α → List α
  | [] => []
  | a :: t => insertDesc key a (sortD key t)

/-- Model of `sorted_parents` (line 63): parent keys sorted by total hours,
descending. -/
def sorted_parents (parent_totals : List (String × ℚ)) : List String :=
  sortD (lookupQ parent_totals) (keysOf parent_totals)

/-- Model of `sorted_tasks` (lines 83 and 163): a parent's `(title, hours)` pairs
sorted by hours, descending. -/
def sorted_tasks (tasks : List (String × ℚ)) : List (String × ℚ) :=
  sortD Prod.snd tasks

/-! ## Chart renderer (lines 66–147)

Only the semantically relevant output is modelled: the stacked segments
with their optional in-bar labels (lines 78–109) and the per-bar top
labels (lines 121–125).  Division, which raises `ZeroDivisionError` in
Python on a zero divisor, is `pyDiv`. -/

/-- Python float division: raises (`Except.error`) on a zero divisor. -/
def pyDiv (a b : ℚ) : Except Unit ℚ :=
  if b = 0 then .error () else .ok (a / b)

/-- Model of `short_title` (line 100): truncate to 6 characters plus an ellipsis when
the title is longer than 8 characters. -/
def short_title (title : String) : String :=
  if title.length > 8 then title.take 6 ++ "..." else title

/-- One stacked segment drawn for a task (one iteration of lines 88–109). -/
structure Seg where
  /-- The task title. -/
  title : String
  /-- The segment height (task hours). -/
  hours : ℚ
  /-- The running bottom of the stack when this segment is drawn. -/
  bottom : ℚ
  /-- The palette index `color_idx % len(colors)` used for the fill. -/
  colorIdx : ℕ
  /-- The in-bar label, when drawn (line 97): its truncated title, raw
  hours, and raw percentage of the parent total. -/
  label : Option (String × ℚ × ℚ)
deriving DecidableEq, Repr

/-- The inner render loop over one parent's sorted tasks (lines 88–109),
carrying `bottom` and `color_idx`.  `percentage = (hours / parent_total) *
100` is computed first (line 89) and raises on a zero parent total. -/
def renderTasks (parent_total : ℚ) : List (String × ℚ) → ℚ → ℕ → Except Unit (List Seg)
  | [], _, _ => .ok []
  | (title, hours) :: rest, bottom, colorIdx => do
      let d ← pyDiv hours parent_total
      let percentage := d * 100
      let lbl :=
        if hours > parent_total * (3 / 100) ∧ percentage > 3 then
          some (short_title title, hours, percentage)
        else none
      let segs ← renderTasks parent_total rest (bottom + hours) (colorIdx + 1)
      .ok (⟨title, hours, bottom, colorIdx % 20, lbl⟩ :: segs)

/-- The top-of-bar label for one parent (lines 121–125): total hours and
percentage of the grand total. -/
structure TopLabel where
  /-- The parent's total hours. -/
  totalHours : ℚ
  /-- The value `(total_hours / sum(parent_totals.values())) * 100`. -/
  pctOfGrand : ℚ
deriving DecidableEq, Repr

/-- A ranking entry: parent name, its total, and its tasks sorted by
descending hours, as consumed by the render loop and the report. -/
abbrev RankEntry := String × ℚ × List (String × ℚ)

/-- The ranking: `sorted_parents` paired with `parent_totals[parent]` and
`sorted(parent_data[parent].items(), …, reverse=True)`. -/
def ranking (parent_data : List (String × List (String × ℚ)))
    (parent_totals : List (String × ℚ)) : List RankEntry :=
  (sorted_parents parent_totals).map
    (fun p => (p, lookupQ parent_totals p, sorted_tasks (lookupTasks parent_data p)))

/-- Map a fallible step over a list, stopping at the first raised
exception (the behavior of a Python `for` loop with a raising body). -/
def mapE {α β : Type} (f : α → Except Unit β) : List α → Except Unit (List β)
  | [] => .ok []
  | a :: t => do
      let b ← f a
      let bs ← mapE f t
      .ok (b :: bs)

/-- The rendered chart: per-parent segment stacks, per-parent top labels,
and the grand-total annotation (line 137). -/
structure Chart where
  /-- One segment stack per parent, in ranking order. -/
  bars : List (List Seg)
  /-- One top label per parent, in ranking order. -/
  tops : List TopLabel
  /-- The grand total `sum(parent_totals.values())`. -/
  grandTotal : ℚ
deriving DecidableEq, Repr

/-- The sum `sum(parent_totals.values())` (lines 123 and 136). -/
def sumVals (l : List (String × ℚ)) : ℚ := (l.map Prod.snd).sum

/-- The rendering phase before `plt.savefig` (lines 78–143): all segment
stacks (lines 78–109), then all top-of-bar labels (lines 121–125). -/
def renderChart (rk : List RankEntry) (grand : ℚ) : Except Unit Chart := do
  let bars ← mapE (fun e => renderTasks e.2.1 e.2.2 0 0) rk
  let tops ← mapE
    (fun e => do
      let d ← pyDiv e.2.1 grand
      Except.ok (⟨e.2.1, d * 100⟩ : TopLabel))
    rk
  .ok ⟨bars, tops, grand⟩

/-! ## Report printer (lines 150–178) -/

/-- One printed task line (line 168): title, hours, percentage of the
parent total. -/
structure TaskLine where
  /-- The task title. -/
  title : String
  /-- The task hours. -/
  hours : ℚ
  /-- The value `(hours / total) * 100`. -/
  pct : ℚ
deriving DecidableEq, Repr

/-- The aggregated "other N items" line (line 174). -/
structure OtherLine where
  /-- The count `len(sorted_tasks) - 5`. -/
  count : ℕ
  /-- The summed hours of the tasks ranked 6th and beyond. -/
  hours : ℚ
  /-- The value `(other_hours / total) * 100`. -/
  pct : ℚ
deriving DecidableEq, Repr

/-- One parent's section of the report (lines 156–175). -/
structure ParentSection where
  /-- The 1-based rank (`i+1`). -/
  rank : ℕ
  /-- The parent name. -/
  name : String
  /-- The parent's total hours. -/
  total : ℚ
  /-- The value `(total / total_hours) * 100`, the share of the grand total. -/
  pctOfGrand : ℚ
  /-- The printed task lines (top 5 by hours, filtered to `pct ≥ 1`). -/
  taskLines : List TaskLine
  /-- The "other N items" line, when printed. -/
  otherLine : Option OtherLine
deriving DecidableEq, Repr

/-- The task-line loop (lines 165–168): over the top five sorted tasks,
compute the percentage (raising on a zero parent total) and print the line
only when the percentage is at least 1. -/
def takeLines (total : ℚ) : List (String × ℚ) → Except Unit (List TaskLine)
  | [] => .ok []
  | (title, hours) :: rest => do
      let d ← pyDiv hours total
      let percentage := d * 100
      let lines ← takeLines total rest
      .ok (if percentage ≥ 1 then ⟨title, hours, percentage⟩ :: lines else lines)

/-- The "other items" computation (lines 170–174): only when more than five
tasks, summing the hours of tasks ranked 6th and beyond, printed only when
that sum is positive. -/
def otherItems (total : ℚ) (tasks : List (String × ℚ)) : Except Unit (Option OtherLine) :=
  if tasks.length > 5 then
    let other_hours := ((tasks.drop 5).map Prod.snd).sum
    if other_hours > 0 then do
      let d ← pyDiv other_hours total
      .ok (some ⟨tasks.length - 5, other_hours, d * 100⟩)
    else .ok none
  else .ok none

/-- One parent's report section (one iteration of lines 156–175). -/
def reportSection (grand : ℚ) (rank : ℕ) (e : RankEntry) : Except Unit ParentSection := do
  let d ← pyDiv e.2.1 grand
  let lines ← takeLines e.2.1 (e.2.2.take 5)
  let other ← otherItems e.2.1 e.2.2
  .ok ⟨rank, e.1, e.2.1, d * 100, lines, other⟩

/-- The report loop (lines 156–175), with 1-based ranks. -/
def reportSections (grand : ℚ) : ℕ → List RankEntry → Except Unit (List ParentSection)
  | _, [] => .ok []
  | rank, e :: rest => do
      let s ← reportSection grand rank e
      let ss ← reportSections grand (rank + 1) rest
      .ok (s :: ss)

/-- The full report (lines 150–178): the grand total banner and the parent
sections. -/
structure Report where
  /-- The grand total printed at line 153. -/
  grandTotal : ℚ
  /-- The per-parent sections. -/
  sections : List ParentSection
deriving DecidableEq, Repr

/-- Build the report. -/
def buildReport (rk : List RankEntry) (grand : ℚ) : Except Unit Report := do
  let ss ← reportSections grand 1 rk
  .ok ⟨grand, ss⟩

/-! ## The whole program (module level, lines 44–178) -/

/-- Outcome of one run of the script. -/
inductive RunResult where
  /-- Empty `data`: line 49 prints a diagnostic and line 50 calls
  `exit(1)`; `loadDiags` are the loader's printed lines. -/
  | exitNoData (loadDiags : List Diag) : RunResult
  /-- Unhandled `StopIteration` from the header read (line 25): traceback,
  non-zero exit, no chart written. -/
  | crashStopIteration : RunResult
  /-- Unhandled `ZeroDivisionError` before `plt.savefig` (line 89 or
  line 123): traceback, non-zero exit, no chart written. -/
  | crashBeforeChart : RunResult
  /-- Unhandled `ZeroDivisionError` in the report (lines 158–173), after
  the chart file was written at line 146. -/
  | crashAfterChart (chart : Chart) : RunResult
  /-- Normal completion: chart written, report printed, implicit exit 0. -/
  | completed (chart : Chart) (report : Report) : RunResult
deriving DecidableEq, Repr

/-- Whether the run terminated with a non-zero exit status. -/
def exitNonZero : RunResult → Bool
  | .exitNoData _ => true
  | .crashStopIteration => true
  | .crashBeforeChart => true
  | .crashAfterChart _ => true
  | .completed _ _ => false

/-- Whether the run wrote the chart file (reached line 146). -/
def chartWritten : RunResult → Bool
  | .exitNoData _ => false
  | .crashStopIteration => false
  | .crashBeforeChart => false
  | .crashAfterChart _ => true
  | .completed _ _ => true

/-- The module-level script (lines 44–178): load, guard against empty data
(lines 48–50), aggregate, rank, render, save, report. -/
def runProgram (file : FileInput) : RunResult :=
  match read_data_from_csv file with
  | .stopIteration => .crashStopIteration
  | .ok data diags =>
      if data.isEmpty then .exitNoData diags
      else
        let agg := aggregate data
        let rk := ranking agg.1 agg.2
        let grand := sumVals agg.2
        match renderChart rk grand with
        | .error _ => .crashBeforeChart
        | .ok chart =>
            match buildReport rk grand with
            | .error _ => .crashAfterChart chart
            | .ok report => .completed chart report

/-- Display rounding to one decimal place, the model of the "{:.1f}"
format used at lines 102, 123, 153, 159, 168 and 174.  (Python rounds
half-to-even; no value proved about below sits at a tie, where the two
rounding rules agree with Mathlib's `round`.) -/
def round1 (q : ℚ) : ℚ := ((round (q * 10) : ℤ) : ℚ) / 10

/-! # Theorems -/

/-- Sum of the hours fields of a list of records. -/
def sumHours (data : List Record) : ℚ := (data.map (fun r => r.2.2)).sum

theorem sumVals_addAssoc (l : List (String × ℚ)) (k : String) (v : ℚ) :
    sumVals (addAssoc l k v) = sumVals l + v := by
  induction l with
  | nil => simp [addAssoc, sumVals]
  | cons p t ih =>
      obtain ⟨k', v'⟩ := p
      by_cases h : k' = k
      · simp [addAssoc, h, sumVals]
        ring
      · simp [addAssoc, h, sumVals] at ih ⊢
        rw [ih]
        ring

theorem aggregate_foldl_sum (data : List Record) :
    ∀ acc : List (String × List (String × ℚ)) × List (String × ℚ),
      sumVals (data.foldl
        (fun acc r => (addNested acc.1 r.2.1 r.1 r.2.2, addAssoc acc.2 r.2.1 r.2.2))
        acc).2 = sumVals acc.2 + sumHours data := by
  induction data with
  | nil => intro acc; simp [sumHours]
  | cons r rest ih =>
      intro acc
      simp only [List.foldl_cons, ih, sumVals_addAssoc, sumHours, List.map_cons,
        List.sum_cons]
      ring

/-- C1: for every input whose rows are successfully loaded, the sum over
all parents of the aggregated per-parent total hours equals the sum of the
hours field over all loaded records — aggregation neither loses nor
duplicates hours. -/
theorem C1_aggregate_total_sum (file : FileInput) (data : List Record)
    (diags : List Diag) (_h : read_data_from_csv file = .ok data diags) :
    sumVals (aggregate data).2 = sumHours data := by
  have := aggregate_foldl_sum data ([], [])
  simpa [aggregate, sumVals] using this

/-- Witness for C1 at the concrete file with one record of 5 hours. -/
theorem C1_aggregate_total_sum_witness :
    sumVals (aggregate [(("A" : String), ("P" : String), (5 : ℚ))]).2 =
      sumHours [(("A" : String), ("P" : String), (5 : ℚ))] :=
  C1_aggregate_total_sum (some [["t", "p", "h"], ["A", "P", "5"]])
    [("A", "P", 5)] [.reading] (by decide)

theorem mem_insertDesc {α : Type} {key : α → ℚ} {a x : α} {l : List α} :
    x ∈ insertDesc key a l ↔ x = a ∨ x ∈ l := by
  induction l with
  | nil => simp [insertDesc]
  | cons b t ih =>
      by_cases hba : key b ≤ key a
      · simp [insertDesc, hba]
      · simp [insertDesc, hba, ih]
        tauto

theorem pairwise_insertDesc {α : Type} (key : α → ℚ) (a : α) (l : List α)
    (h : l.Pairwise fun x y => key y ≤ key x) :
    (insertDesc key a l).Pairwise fun x y => key y ≤ key x := by
  induction l with
  | nil => simp [insertDesc]
  | cons b t ih =>
      rw [List.pairwise_cons] at h
      obtain ⟨hb, ht⟩ := h
      by_cases hba : key b ≤ key a
      · rw [insertDesc, if_pos hba, List.pairwise_cons]
        refine ⟨?_, List.pairwise_cons.mpr ⟨hb, ht⟩⟩
        intro x hx
        rcases List.mem_cons.mp hx with rfl | hxt
        · exact hba
        · exact le_trans (hb x hxt) hba
      · rw [insertDesc, if_neg hba, List.pairwise_cons]
        refine ⟨?_, ih ht⟩
        intro x hx
        rcases mem_insertDesc.mp hx with rfl | hxt
        · exact le_of_not_le hba
        · exact hb x hxt

theorem pairwise_sortD {α : Type} (key : α → ℚ) (l : List α) :
    (sortD key l).Pairwise fun x y => key y ≤ key x := by
  induction l with
  | nil => simp [sortD]
  | cons a t ih => exact pairwise_insertDesc key a _ ih

/-- C2: the ranking is ordered by descending total hours — whenever parent
A appears before parent B in `sorted_parents`, A's aggregated total is at
least B's; and within every parent, `sorted_tasks` puts a task of larger
hours before any task of smaller hours. -/
theorem C2_ranking_sorted_desc (data : List Record) :
    ((sorted_parents (aggregate data).2).Pairwise fun a b =>
      lookupQ (aggregate data).2 b ≤ lookupQ (aggregate data).2 a) ∧
    ∀ p : String,
      (sorted_tasks (lookupTasks (aggregate data).1 p)).Pairwise fun t1 t2 =>
        t2.2 ≤ t1.2 :=
  ⟨pairwise_sortD _ _, fun _ => pairwise_sortD Prod.snd _⟩

theorem ok_bind {α β : Type} (a : α) (f : α → Except Unit β) :
    (Except.ok a : Except Unit α) >>= f = f a := rfl

theorem error_bind {α β : Type} (f : α → Except Unit β) :
    (Except.error () : Except Unit α) >>= f = Except.error () := rfl

/-- C7: on the concrete records A/Dev/100, B/Dev/50, C/QA/30, aggregation
gives parent totals Dev 150 and QA 30, the ranking is Dev then QA, Dev's
task order is A(100) then B(50), the grand total is 180, and Dev's report
section has rank 1, name "Dev", displayed total 150.0 and displayed share
83.3 percent of the grand total (exactly the claimed value, hence within
the ±0.1 rounding tolerance). -/
theorem C7_concrete_scenario :
    lookupQ (aggregate [("A", "Dev", (100 : ℚ)), ("B", "Dev", 50), ("C", "QA", 30)]).2
        "Dev" = 150 ∧
    lookupQ (aggregate [("A", "Dev", (100 : ℚ)), ("B", "Dev", 50), ("C", "QA", 30)]).2
        "QA" = 30 ∧
    sorted_parents
        (aggregate [("A", "Dev", (100 : ℚ)), ("B", "Dev", 50), ("C", "QA", 30)]).2 =
      ["Dev", "QA"] ∧
    sorted_tasks
        (lookupTasks
          (aggregate [("A", "Dev", (100 : ℚ)), ("B", "Dev", 50), ("C", "QA", 30)]).1
          "Dev") = [("A", 100), ("B", 50)] ∧
    sumVals (aggregate [("A", "Dev", (100 : ℚ)), ("B", "Dev", 50), ("C", "QA", 30)]).2 =
      180 ∧
    (buildReport
        (ranking
          (aggregate [("A", "Dev", (100 : ℚ)), ("B", "Dev", 50), ("C", "QA", 30)]).1
          (aggregate [("A", "Dev", (100 : ℚ)), ("B", "Dev", 50), ("C", "QA", 30)]).2)
        180).map (fun rep => rep.sections.map fun s =>
          (s.rank, s.name, round1 s.total, round1 s.pctOfGrand)) =
      .ok [(1, "Dev", 150, 833 / 10), (2, "QA", 30, 167 / 10)] := by
  have hdq : ("Dev" : String) ≠ "QA" := by decide
  have hqd : ("QA" : String) ≠ "Dev" := by decide
  refine ⟨?_, ?_, ?_, ?_, ?_, ?_⟩ <;>
    norm_num [aggregate, addAssoc, addNested, buildReport, ranking, sorted_parents,
      sorted_tasks, sortD, insertDesc, keysOf, lookupQ, lookupTasks, reportSections,
      reportSection, takeLines, otherItems, pyDiv, round1, Except.map, sumVals,
      ok_bind, error_bind, round_eq, hdq, hqd]

/-- C8: the percentage computations divide by a parent's total without a
zero guard, and the division-by-zero error branch is reachable: the
loadable file with the single data row A,P,0 loads one record, its parent
P has total 0, and rendering raises `ZeroDivisionError` at the segment
percentage, crashing the run before any chart is written. -/
theorem C8_div_by_zero_reachable :
    read_data_from_csv (some [["t", "p", "h"], ["A", "P", "0"]]) =
      .ok [("A", "P", 0)] [.reading] ∧
    lookupQ (aggregate [(("A" : String), ("P" : String), (0 : ℚ))]).2 "P" = 0 ∧
    pyDiv 0 0 = .error () ∧
    renderTasks 0 [(("A" : String), (0 : ℚ))] 0 0 = .error () ∧
    renderChart
        (ranking (aggregate [(("A" : String), ("P" : String), (0 : ℚ))]).1
          (aggregate [(("A" : String), ("P" : String), (0 : ℚ))]).2)
        (sumVals (aggregate [(("A" : String), ("P" : String), (0 : ℚ))]).2) =
      .error () ∧
    runProgram (some [["t", "p", "h"], ["A", "P", "0"]]) = .crashBeforeChart ∧
    chartWritten (runProgram (some [["t", "p", "h"], ["A", "P", "0"]])) = false :=
  ⟨rfl, rfl, rfl, rfl, rfl, rfl, rfl⟩

/-- C9: the unconditional header read is unguarded against an empty file —
`read_data_from_csv` on an existing file with no rows at all does not
return an empty sequence but raises `StopIteration`, while a missing file
does return the empty sequence with its diagnostic; the empty-file run
therefore crashes instead of taking the documented empty-data path. -/
theorem C9_empty_file_crashes :
    read_data_from_csv (some []) = .stopIteration ∧
    (∀ (data : List Record) (diags : List Diag),
      read_data_from_csv (some []) ≠ .ok data diags) ∧
    read_data_from_csv none = .ok [] [.missingFile] ∧
    runProgram (some []) = .crashStopIteration := by
  refine ⟨rfl, ?_, rfl, rfl⟩
  intro data diags h
  exact LoadOutcome.noConfusion h

theorem rowRecord_none_of_fail {row : Row} (hlen : 3 ≤ row.length)
    (hnone : pyFloat (row.getD 2 "") = none) : rowRecord row = none := by
  unfold rowRecord
  rw [if_pos hlen, hnone]

theorem rowDiag_some_of_fail {row : Row} (hlen : 3 ≤ row.length)
    (hnone : pyFloat (row.getD 2 "") = none) :
    rowDiag row = some (.invalidRow row) := by
  unfold rowDiag
  rw [if_pos ⟨hlen, hnone⟩]

theorem rowRecord_none_of_short {row : Row} (hshort : ¬3 ≤ row.length) :
    rowRecord row = none := by
  unfold rowRecord
  rw [if_neg hshort]

theorem rowDiag_none_of_short {row : Row} (hshort : ¬3 ≤ row.length) :
    rowDiag row = none := by
  unfold rowDiag
  rw [if_neg (fun hc => hshort hc.1)]

theorem rowRecord_some {row : Row} {r : Record} (h : rowRecord row = some r) :
    3 ≤ row.length ∧ pyFloat (row.getD 2 "") = some r.2.2 ∧
      r = (row.getD 0 "", row.getD 1 "", r.2.2) := by
  by_cases hlen : 3 ≤ row.length
  · rw [rowRecord.eq_def, if_pos hlen] at h
    cases hp : pyFloat (row.getD 2 "") with
    | some q =>
        rw [hp] at h
        simp only [Option.some.injEq] at h
        refine ⟨hlen, ?_, ?_⟩
        · rw [← h]
        · rw [← h]
    | none => rw [hp] at h; cases h
  · rw [rowRecord.eq_def, if_neg hlen] at h
    cases h

/-- C4 (amended): every record produced by the loader has an hours value
obtained by a successful float coercion of its source row's third field,
and every row with at least 3 fields whose hours field fails the coercion
is discarded with a diagnostic naming it — but no non-negativity (or
finiteness) condition is enforced on successfully coerced values. -/
theorem C4_loader_hours_parsed (hdr : Row) (rows : List Row) (data : List Record)
    (diags : List Diag) (h : read_data_from_csv (some (hdr :: rows)) = .ok data diags) :
    (∀ r ∈ data, ∃ row ∈ rows, 3 ≤ row.length ∧
        pyFloat (row.getD 2 "") = some r.2.2 ∧
        r = (row.getD 0 "", row.getD 1 "", r.2.2)) ∧
    (∀ row ∈ rows, 3 ≤ row.length → pyFloat (row.getD 2 "") = none →
        rowRecord row = none ∧ Diag.invalidRow row ∈ diags) := by
  simp only [read_data_from_csv, LoadOutcome.ok.injEq] at h
  obtain ⟨hdata, hdiags⟩ := h
  subst hdata
  subst hdiags
  constructor
  · intro r hr
    obtain ⟨row, hrow, hrec⟩ := List.mem_filterMap.mp hr
    obtain ⟨hlen, hp, hr'⟩ := rowRecord_some hrec
    exact ⟨row, hrow, hlen, hp, hr'⟩
  · intro row hrow hlen hnone
    refine ⟨rowRecord_none_of_fail hlen hnone, ?_⟩
    exact List.mem_cons_of_mem _
      (List.mem_filterMap.mpr ⟨row, hrow, rowDiag_some_of_fail hlen hnone⟩)

/-- Counterexample to C4 as stated: the row A,P,-1 passes float coercion
and is not discarded, producing a record whose hours value is negative —
so not every loaded record has non-negative hours. -/
theorem C4_counterexample :
    read_data_from_csv (some [["t", "p", "h"], ["A", "P", "-1"]]) =
      .ok [("A", "P", -1)] [.reading] ∧
    (((("A" : String), ("P" : String), (-1 : ℚ))).2.2 < 0) :=
  ⟨rfl, by norm_num⟩

/-- Witness for C4 (amended) at a concrete two-row file. -/
theorem C4_loader_hours_parsed_witness :
    ∃ row ∈ [["A", "P", "5"], ["X", "Dev", "abc"]], 3 ≤ row.length ∧
      pyFloat (row.getD 2 "") = some ((("A" : String), ("P" : String), (5 : ℚ)).2.2) ∧
      (("A" : String), ("P" : String), (5 : ℚ)) =
        (row.getD 0 "", row.getD 1 "", (("A" : String), ("P" : String), (5 : ℚ)).2.2) :=
  (C4_loader_hours_parsed ["t", "p", "h"] [["A", "P", "5"], ["X", "Dev", "abc"]]
      [("A", "P", 5)] [.reading, .invalidRow ["X", "Dev", "abc"]] rfl).1
    ("A", "P", 5) (by simp)

/-- C5: a data row with at least 3 fields whose hours field fails numeric
parsing is skipped with a diagnostic naming the row, and loading continues
with the surrounding rows; a row with fewer than 3 fields is skipped
silently, with no diagnostic. -/
theorem C5_malformed_and_short_rows (hdr : Row) (pre post : List Row) (row : Row) :
    (3 ≤ row.length → pyFloat (row.getD 2 "") = none →
      read_data_from_csv (some (hdr :: (pre ++ row :: post))) =
        .ok (pre.filterMap rowRecord ++ post.filterMap rowRecord)
          (.reading ::
            (pre.filterMap rowDiag ++ .invalidRow row :: post.filterMap rowDiag))) ∧
    (row.length < 3 →
      read_data_from_csv (some (hdr :: (pre ++ row :: post))) =
        .ok (pre.filterMap rowRecord ++ post.filterMap rowRecord)
          (.reading :: (pre.filterMap rowDiag ++ post.filterMap rowDiag))) := by
  constructor
  · intro hlen hnone
    have hrec := rowRecord_none_of_fail hlen hnone
    have hdiag := rowDiag_some_of_fail hlen hnone
    simp [read_data_from_csv, List.filterMap_append, List.filterMap_cons, hrec, hdiag]
  · intro hshort
    have hlen : ¬3 ≤ row.length := by omega
    have hrec := rowRecord_none_of_short hlen
    have hdiag := rowDiag_none_of_short hlen
    simp [read_data_from_csv, List.filterMap_append, List.filterMap_cons, hrec, hdiag]

/-- Witness for C5: the malformed row X,Dev,abc is skipped with a
diagnostic while loading continues around it, and the short row Y is
skipped with no diagnostic at all. -/
theorem C5_malformed_and_short_rows_witness :
    read_data_from_csv
        (some [["t", "p", "h"], ["A", "P", "5"], ["X", "Dev", "abc"], ["B", "Q", "2"]]) =
      .ok [("A", "P", 5), ("B", "Q", 2)] [.reading, .invalidRow ["X", "Dev", "abc"]] ∧
    read_data_from_csv (some [["t", "p", "h"], ["Y"]]) = .ok [] [.reading] := by
  constructor
  · have h := (C5_malformed_and_short_rows ["t", "p", "h"] [["A", "P", "5"]]
      [["B", "Q", "2"]] ["X", "Dev", "abc"]).1 (by decide) (by decide)
    have e : (["t", "p", "h"] :: ([["A", "P", "5"]] ++
        ["X", "Dev", "abc"] :: [["B", "Q", "2"]])) =
        [["t", "p", "h"], ["A", "P", "5"], ["X", "Dev", "abc"], ["B", "Q", "2"]] := rfl
    rw [e] at h
    rw [h]
    rfl
  · have h := (C5_malformed_and_short_rows ["t", "p", "h"] [] [] ["Y"]).2 (by decide)
    have e : (["t", "p", "h"] :: (([] : List Row) ++ ["Y"] :: [])) =
        [["t", "p", "h"], ["Y"]] := rfl
    rw [e] at h
    rw [h]
    rfl

/-- C6: a rendered segment carries an in-bar label exactly when its hours
exceed 3 percent of the parent's total AND its percentage of the parent
total exceeds 3; the label is the title truncated to 6 characters plus an
ellipsis when the title is longer than 8 characters, together with the
segment's hours and its percentage of the parent total. -/
theorem C6_label_condition (total : ℚ) (tasks : List (String × ℚ)) (b : ℚ) (c : ℕ)
    (segs : List Seg) (h : renderTasks total tasks b c = .ok segs) :
    ∀ s ∈ segs,
      (s.label.isSome ↔ s.hours > total * (3 / 100) ∧ (s.hours / total) * 100 > 3) ∧
      ∀ st hq pq, s.label = some (st, hq, pq) →
        st = short_title s.title ∧
        short_title s.title =
          (if s.title.length > 8 then s.title.take 6 ++ "..." else s.title) ∧
        hq = s.hours ∧ pq = (s.hours / total) * 100 := by
  induction tasks generalizing b c segs with
  | nil =>
      simp only [renderTasks, Except.ok.injEq] at h
      subst h
      intro s hs
      cases hs
  | cons p rest ih =>
      obtain ⟨title, hours⟩ := p
      by_cases h0 : total = 0
      · simp only [renderTasks, pyDiv, if_pos h0, error_bind] at h
        cases h
      · simp only [renderTasks, pyDiv, if_neg h0, ok_bind] at h
        cases hrt : renderTasks total rest (b + hours) (c + 1) with
        | error e =>
            rw [hrt, error_bind] at h
            cases h
        | ok segs' =>
            rw [hrt, ok_bind] at h
            simp only [Except.ok.injEq] at h
            subst h
            intro s hs
            rcases List.mem_cons.mp hs with rfl | hmem
            · by_cases hcond :
                  hours > total * (3 / 100) ∧ (hours / total) * 100 > 3
              · refine ⟨by simp [hcond], ?_⟩
                intro st hq pq heq
                simp only [if_pos hcond, Option.some.injEq, Prod.mk.injEq] at heq
                obtain ⟨h1, h2, h3⟩ := heq
                exact ⟨h1.symm, by simp [short_title], h2.symm, h3.symm⟩
              · refine ⟨by simp [hcond], ?_⟩
                intro st hq pq heq
                simp only [if_neg hcond] at heq
                cases heq
            · exact ih (b + hours) (c + 1) segs' hrt s hmem

/-- Witness for C6 at a concrete parent of total 150 with tasks A(100)
and B(50): the first rendered segment's label facts, via the theorem. -/
theorem C6_label_condition_witness :
    ((⟨"A", 100, 0, 0, some ("A", 100, (200 : ℚ) / 3)⟩ : Seg).label.isSome ↔
      ((⟨"A", 100, 0, 0, some ("A", 100, (200 : ℚ) / 3)⟩ : Seg).hours >
          150 * (3 / 100) ∧
        ((⟨"A", 100, 0, 0, some ("A", 100, (200 : ℚ) / 3)⟩ : Seg).hours / 150) * 100 >
          3)) :=
  (C6_label_condition 150 [("A", 100), ("B", 50)] 0 0
      [⟨"A", 100, 0, 0, some ("A", 100, (200 : ℚ) / 3)⟩,
       ⟨"B", 50, 100, 1, some ("B", 50, (100 : ℚ) / 3)⟩]
      (by norm_num [renderTasks, pyDiv, short_title, ok_bind,
        show ¬(8 < ("A" : String).length) from by decide,
        show ¬(8 < ("B" : String).length) from by decide])
      ⟨"A", 100, 0, 0, some ("A", 100, (200 : ℚ) / 3)⟩ (by simp)).1

theorem takeLines_mem {total : ℚ} :
    ∀ {ts : List (String × ℚ)} {ls : List TaskLine},
      takeLines total ts = .ok ls →
      ∀ tl ∈ ls, tl.pct ≥ 1 ∧ ∃ p ∈ ts, tl = ⟨p.1, p.2, (p.2 / total) * 100⟩ := by
  intro ts
  induction ts with
  | nil =>
      intro ls h
      simp only [takeLines, Except.ok.injEq] at h
      subst h
      intro tl htl
      cases htl
  | cons p rest ih =>
      obtain ⟨t, hr⟩ := p
      intro ls h
      by_cases h0 : total = 0
      · simp only [takeLines, pyDiv, if_pos h0, error_bind] at h
        cases h
      · simp only [takeLines, pyDiv, if_neg h0, ok_bind] at h
        cases hrt : takeLines total rest with
        | error e =>
            rw [hrt, error_bind] at h
            cases h
        | ok ls' =>
            rw [hrt, ok_bind] at h
            simp only [Except.ok.injEq] at h
            subst h
            intro tl htl
            by_cases hc : (hr / total) * 100 ≥ 1
            · rw [if_pos hc] at htl
              rcases List.mem_cons.mp htl with rfl | hmem
              · exact ⟨hc, ⟨(t, hr), List.mem_cons_self _ _, rfl⟩⟩
              · obtain ⟨hpct, q, hq, he⟩ := ih hrt tl hmem
                exact ⟨hpct, q, List.mem_cons_of_mem _ hq, he⟩
            · rw [if_neg hc] at htl
              obtain ⟨hpct, q, hq, he⟩ := ih hrt tl htl
              exact ⟨hpct, q, List.mem_cons_of_mem _ hq, he⟩

theorem otherItems_spec {total : ℚ} {tasks : List (String × ℚ)}
    {o : Option OtherLine} (h : otherItems total tasks = .ok o) :
    ∀ ol, o = some ol → ol.count = tasks.length - 5 ∧
      ol.hours = ((tasks.drop 5).map Prod.snd).sum := by
  intro ol hol
  subst hol
  simp only [otherItems] at h
  by_cases hlen : tasks.length > 5
  · rw [if_pos hlen] at h
    by_cases hpos : ((tasks.drop 5).map Prod.snd).sum > 0
    · rw [if_pos hpos] at h
      by_cases h0 : total = 0
      · rw [pyDiv, if_pos h0, error_bind] at h
        cases h
      · rw [pyDiv, if_neg h0, ok_bind] at h
        simp only [Except.ok.injEq, Option.some.injEq] at h
        rw [← h]
        exact ⟨rfl, rfl⟩
    · rw [if_neg hpos] at h
      cases h
  · rw [if_neg hlen] at h
    cases h

/-- C10: in the printed report the under-1-percent filter applies inside
the top five while the "other N items" line aggregates exactly the tasks
ranked 6th and beyond — so a top-five task below 1 percent of the parent
total appears in no report line at all, and the printed lines need not
account for the parent's full total. -/
theorem C10_report_top5_filter (grand : ℚ) (rank : ℕ) (name : String) (total : ℚ)
    (tasks : List (String × ℚ)) (sec : ParentSection)
    (h : reportSection grand rank (name, total, tasks) = .ok sec) :
    (∀ tl ∈ sec.taskLines, tl.pct ≥ 1 ∧
      ∃ p ∈ tasks.take 5, tl = ⟨p.1, p.2, (p.2 / total) * 100⟩) ∧
    (∀ t hr, (t, hr) ∈ tasks.take 5 → (hr / total) * 100 < 1 →
      (⟨t, hr, (hr / total) * 100⟩ : TaskLine) ∉ sec.taskLines) ∧
    (∀ ol, sec.otherLine = some ol → ol.count = tasks.length - 5 ∧
      ol.hours = ((tasks.drop 5).map Prod.snd).sum) := by
  by_cases hg : grand = 0
  · rw [reportSection, pyDiv, if_pos hg, error_bind] at h
    cases h
  · rw [reportSection, pyDiv, if_neg hg, ok_bind] at h
    cases hlines : takeLines total (tasks.take 5) with
    | error e =>
        rw [hlines, error_bind] at h
        cases h
    | ok ls =>
        rw [hlines, ok_bind] at h
        cases hother : otherItems total tasks with
        | error e =>
            rw [hother, error_bind] at h
            cases h
        | ok o =>
            rw [hother, ok_bind] at h
            simp only [Except.ok.injEq] at h
            subst h
            refine ⟨takeLines_mem hlines, ?_, otherItems_spec hother⟩
            intro t hr _hmem hlt hin
            have := (takeLines_mem hlines _ hin).1
            simp only [TaskLine.mk.injEq] at this ⊢
            exact absurd this (by simpa using not_le.mpr hlt)

/-- Witness for C10: a parent with tasks big(1000) and tiny(0.5) — tiny is
in the top five but under 1 percent, so its line is absent from the
section and no other line exists. -/
theorem C10_report_top5_filter_witness :
    (⟨"tiny", 1 / 2, ((1 / 2 : ℚ) / (2001 / 2)) * 100⟩ : TaskLine) ∉
      ([⟨"big", 1000, 200000 / 2001⟩] : List TaskLine) :=
  (C10_report_top5_filter (2001 / 2) 1 "P" (2001 / 2)
      [("big", 1000), ("tiny", 1 / 2)]
      ⟨1, "P", 2001 / 2, 100, [⟨"big", 1000, 200000 / 2001⟩], none⟩
      (by norm_num [reportSection, takeLines, otherItems, pyDiv, ok_bind])).2.1
    "tiny" (1 / 2) (by norm_num [List.take]) (by norm_num)

theorem mapE_ok {α β : Type} (f : α → Except Unit β) (l : List α)
    (h : ∀ a ∈ l, ∃ b, f a = .ok b) : ∃ bs, mapE f l = .ok bs := by
  induction l with
  | nil => exact ⟨[], rfl⟩
  | cons a t ih =>
      obtain ⟨b, hb⟩ := h a (List.mem_cons_self a t)
      obtain ⟨bs, hbs⟩ := ih (fun x hx => h x (List.mem_cons_of_mem a hx))
      exact ⟨b :: bs, by simp [mapE, hb, hbs, ok_bind]⟩

theorem renderTasks_ok (total : ℚ) (h0 : total ≠ 0) :
    ∀ (ts : List (String × ℚ)) (b : ℚ) (c : ℕ),
      ∃ segs, renderTasks total ts b c = .ok segs := by
  intro ts
  induction ts with
  | nil => exact fun b c => ⟨[], rfl⟩
  | cons p rest ih =>
      obtain ⟨t, hr⟩ := p
      intro b c
      obtain ⟨segs, hs⟩ := ih (b + hr) (c + 1)
      refine ⟨⟨t, hr, b, c % 20,
        if hr > total * (3 / 100) ∧ hr / total * 100 > 3 then
          some (short_title t, hr, hr / total * 100)
        else none⟩ :: segs, ?_⟩
      simp only [renderTasks, pyDiv, if_neg h0, ok_bind, hs]

theorem takeLines_ok (total : ℚ) (h0 : total ≠ 0) :
    ∀ ts : List (String × ℚ), ∃ ls, takeLines total ts = .ok ls := by
  intro ts
  induction ts with
  | nil => exact ⟨[], rfl⟩
  | cons p rest ih =>
      obtain ⟨t, hr⟩ := p
      obtain ⟨ls, hs⟩ := ih
      refine ⟨if hr / total * 100 ≥ 1 then ⟨t, hr, hr / total * 100⟩ :: ls else ls, ?_⟩
      simp only [takeLines, pyDiv, if_neg h0, ok_bind, hs]

theorem otherItems_ok (total : ℚ) (h0 : total ≠ 0) (tasks : List (String × ℚ)) :
    ∃ o, otherItems total tasks = .ok o := by
  simp only [otherItems]
  by_cases hlen : tasks.length > 5
  · rw [if_pos hlen]
    by_cases hpos : ((tasks.drop 5).map Prod.snd).sum > 0
    · rw [if_pos hpos, pyDiv, if_neg h0, ok_bind]
      exact ⟨_, rfl⟩
    · rw [if_neg hpos]
      exact ⟨none, rfl⟩
  · rw [if_neg hlen]
    exact ⟨none, rfl⟩

theorem reportSection_ok (grand : ℚ) (hg : grand ≠ 0) (rank : ℕ) (e : RankEntry)
    (he : e.2.1 ≠ 0) : ∃ s, reportSection grand rank e = .ok s := by
  obtain ⟨ls, hls⟩ := takeLines_ok e.2.1 he (e.2.2.take 5)
  obtain ⟨o, ho⟩ := otherItems_ok e.2.1 he e.2.2
  refine ⟨⟨rank, e.1, e.2.1, e.2.1 / grand * 100, ls, o⟩, ?_⟩
  simp only [reportSection, pyDiv, if_neg hg, ok_bind, hls, ho]

theorem reportSections_ok (grand : ℚ) (hg : grand ≠ 0) :
    ∀ (rk : List RankEntry), (∀ e ∈ rk, e.2.1 ≠ 0) →
      ∀ rank : ℕ, ∃ ss, reportSections grand rank rk = .ok ss := by
  intro rk
  induction rk with
  | nil => exact fun _ rank => ⟨[], rfl⟩
  | cons e rest ih =>
      intro h rank
      obtain ⟨s, hs⟩ := reportSection_ok grand hg rank e (h e (List.mem_cons_self e rest))
      obtain ⟨ss, hss⟩ := ih (fun x hx => h x (List.mem_cons_of_mem e hx)) (rank + 1)
      exact ⟨s :: ss, by simp only [reportSections, hs, ok_bind, hss]⟩

theorem buildReport_ok (rk : List RankEntry) (grand : ℚ)
    (h1 : ∀ e ∈ rk, e.2.1 ≠ 0) (hg : grand ≠ 0) :
    ∃ r, buildReport rk grand = .ok r := by
  obtain ⟨ss, hss⟩ := reportSections_ok grand hg rk h1 1
  exact ⟨⟨grand, ss⟩, by simp only [buildReport, hss, ok_bind]⟩

theorem renderChart_ok (rk : List RankEntry) (grand : ℚ)
    (h1 : ∀ e ∈ rk, e.2.1 ≠ 0) (hg : grand ≠ 0) :
    ∃ c, renderChart rk grand = .ok c := by
  obtain ⟨bars, hbars⟩ :=
    mapE_ok (fun e => renderTasks e.2.1 e.2.2 0 0) rk
      (fun e he => renderTasks_ok e.2.1 (h1 e he) e.2.2 0 0)
  obtain ⟨tops, htops⟩ :=
    mapE_ok (fun e => do
        let d ← pyDiv e.2.1 grand
        Except.ok (⟨e.2.1, d * 100⟩ : TopLabel)) rk
      (fun e he => ⟨⟨e.2.1, e.2.1 / grand * 100⟩, by
        simp only [pyDiv, if_neg hg, ok_bind]⟩)
  exact ⟨⟨bars, tops, grand⟩, by simp only [renderChart, hbars, ok_bind, htops]⟩

/-- C3 (amended): a run that loads zero valid records because the file is
missing or every data row is skipped prints a diagnostic and exits
non-zero without writing any chart; a run that loads at least one valid
record completes normally with implicit success status provided every
ranked parent's total hours and the grand total are nonzero (without that
proviso the claim fails, see the counterexample: a zero parent total makes
the rendering divide by zero and crash). -/
theorem C3_exit_and_completion :
    (∀ file : FileInput,
      (file = none ∨
        ∃ hdr rows, file = some (hdr :: rows) ∧ rows.filterMap rowRecord = []) →
      ∃ diags, runProgram file = .exitNoData diags ∧ diags ≠ [] ∧
        exitNonZero (runProgram file) = true ∧
        chartWritten (runProgram file) = false) ∧
    (∀ (hdr : Row) (rows : List Row),
      rows.filterMap rowRecord ≠ [] →
      (∀ e ∈ ranking (aggregate (rows.filterMap rowRecord)).1
          (aggregate (rows.filterMap rowRecord)).2, e.2.1 ≠ 0) →
      sumVals (aggregate (rows.filterMap rowRecord)).2 ≠ 0 →
      ∃ chart report, runProgram (some (hdr :: rows)) = .completed chart report ∧
        exitNonZero (runProgram (some (hdr :: rows))) = false ∧
        chartWritten (runProgram (some (hdr :: rows))) = true) := by
  constructor
  · rintro file (rfl | ⟨hdr, rows, rfl, hempty⟩)
    · exact ⟨[.missingFile], rfl, by simp, rfl, rfl⟩
    · have hrun : runProgram (some (hdr :: rows)) =
          .exitNoData (.reading :: rows.filterMap rowDiag) := by
        simp [runProgram, read_data_from_csv, hempty]
      refine ⟨_, hrun, by simp, ?_, ?_⟩
      · rw [hrun]
        rfl
      · rw [hrun]
        rfl
  · intro hdr rows hne h1 h2
    obtain ⟨chart, hchart⟩ :=
      renderChart_ok (ranking (aggregate (rows.filterMap rowRecord)).1
        (aggregate (rows.filterMap rowRecord)).2)
        (sumVals (aggregate (rows.filterMap rowRecord)).2) h1 h2
    obtain ⟨report, hrep⟩ :=
      buildReport_ok (ranking (aggregate (rows.filterMap rowRecord)).1
        (aggregate (rows.filterMap rowRecord)).2)
        (sumVals (aggregate (rows.filterMap rowRecord)).2) h1 h2
    have hie : (rows.filterMap rowRecord).isEmpty = false := by
      cases hd : rows.filterMap rowRecord with
      | nil => exact absurd hd hne
      | cons a l => rfl
    have hrun : runProgram (some (hdr :: rows)) = .completed chart report := by
      simp only [runProgram, read_data_from_csv, hie, Bool.false_eq_true,
        if_false, hchart, hrep]
    refine ⟨chart, report, hrun, ?_, ?_⟩
    · rw [hrun]
      rfl
    · rw [hrun]
      rfl

/-- Counterexample to C3 as stated: the file with the single valid data
row A,P,0 loads one valid record, yet the run does not complete normally —
it crashes on a division by zero before writing the chart, with a non-zero
exit status. -/
theorem C3_counterexample :
    read_data_from_csv (some [["t", "p", "h"], ["A", "P", "0"]]) =
      .ok [("A", "P", 0)] [.reading] ∧
    runProgram (some [["t", "p", "h"], ["A", "P", "0"]]) = .crashBeforeChart ∧
    (∀ (chart : Chart) (report : Report),
      runProgram (some [["t", "p", "h"], ["A", "P", "0"]]) ≠
        .completed chart report) ∧
    exitNonZero (runProgram (some [["t", "p", "h"], ["A", "P", "0"]])) = true := by
  refine ⟨rfl, rfl, ?_, rfl⟩
  intro chart report h
  rw [show runProgram (some [["t", "p", "h"], ["A", "P", "0"]]) =
    .crashBeforeChart from rfl] at h
  exact RunResult.noConfusion h

/-- Witness for C3 (amended): the missing-file run exits non-zero with no
chart, and the one-record run A,P,100 (all totals nonzero) completes with
the chart written. -/
theorem C3_exit_and_completion_witness :
    exitNonZero (runProgram none) = true ∧
    chartWritten (runProgram none) = false ∧
    exitNonZero (runProgram (some [["t", "p", "h"], ["A", "P", "100"]])) = false ∧
    chartWritten (runProgram (some [["t", "p", "h"], ["A", "P", "100"]])) = true := by
  obtain ⟨d, _, _, hx1, hc1⟩ := C3_exit_and_completion.1 none (Or.inl rfl)
  obtain ⟨c, r, _, hx2, hc2⟩ :=
    C3_exit_and_completion.2 ["t", "p", "h"] [["A", "P", "100"]]
      (by decide)
      (by decide)
      (by exact (by norm_num [sumVals, aggregate, addAssoc, addNested] :
        sumVals (aggregate [(("A" : String), ("P" : String), (100 : ℚ))]).2 ≠ 0))
  exact ⟨hx1, hc1, hx2, hc2⟩

end WorkHours
